import Mathlib

/-!
Verification of the client-side streaming event reconciliation and
voice-interaction pipeline of the agentcosm chat frontend.

The definitions below are shallow embeddings of:
  * the SSE streaming transport `useSSE.sendMessage`
    (src/web/src/hooks: the useSSE hook),
  * the event-reconciliation effect of the chat page component
    (src/web/src/app/chat/page.tsx, the effect over `sseEvents`),
  * the voice pipeline of the MessageInput component
    (TTSCache, stopCurrentAudio, startListening, generateAndPlayTTS).

Modelling conventions, stated once:
  * JS numbers used as fractional-second timestamps are modelled as rationals.
  * A JS field whose absence and emptiness are both falsy (for example the
    extracted text `content?.parts?.[0]?.text` with the guard `if (!text)`)
    is modelled as a `String` where the empty string stands for the falsy case.
  * The JS field named `partial` on a fragment is modelled by the field
    `interim` (its JS name is a reserved word here); `invocation_id` is
    modelled as a `String` where the empty string is the falsy/absent case.
  * `Date.now()` fallbacks for absent timestamps/ids are outside the model:
    events are modelled as carrying their producer-assigned timestamp, and
    synthesized random entry ids are modelled as `none`.
-/

namespace AgentCosm

/-- One parsed JSON fragment as seen by the useSSE hook and the chat page:
the fields of the `SSEEvent` interface that the reconciliation logic reads.
`interim` models the JS field named after the reserved word (the streaming
flag sent by the server); `isStreaming` is the flag the transport adds. -/
structure SSEEvent where
  id : Option String
  author : String
  text : String
  timestamp : ℚ
  interim : Bool
  invocationId : String
  isStreaming : Bool
deriving DecidableEq, Repr

/-- One reconciled transcript entry of the chat page (`sessionEvents` items).
A synthesized random id (`event-Date.now()-Math.random()`) is modelled as
`none`. -/
structure Entry where
  id : Option String
  author : String
  text : String
  timestamp : ℚ
  isStreaming : Bool
deriving DecidableEq, Repr

/-- State of the chat page component that the SSE-processing effect reads and
writes: the `processedEventsRef` set of event keys, the `sessionEvents`
transcript, and the `lastAiResponse` value fed to speech synthesis. -/
structure PageState where
  processedEvents : List String
  sessionEvents : List Entry
  lastAiResponse : String
deriving DecidableEq, Repr

/-- Author string that triggers speech synthesis and is treated as the
authoritative reply (hardcoded in src/web/src/app/chat/page.tsx). -/
def coordinatorAuthor : String := "liminal_market_opportunity_coordinator"

/-- JS `text.substring(0, n)`: the first `n` characters of a string, written
over the character list so that it evaluates by structural recursion. -/
def takeChars (s : String) (n : Nat) : String :=
  String.mk (s.toList.take n)

/-- JS `text.trim()`: leading and trailing whitespace removed, written over
the character list so that it evaluates by structural recursion. -/
def jsTrim (s : String) : String :=
  String.mk
    (((s.toList.dropWhile Char.isWhitespace).reverse.dropWhile
        Char.isWhitespace).reverse)

/-- The `Math.abs(en.timestamp - eventToAdd.timestamp) < 2` window check of
page.tsx. Rational subtraction normalizes through `Nat.gcd` and therefore
does not evaluate inside the kernel, so the predicate is written in the
equivalent integer cross-multiplied form; `absDiffLtTwo_iff` below proves
it equal to the textbook `|a - b| < 2`. -/
def absDiffLtTwo (a b : ℚ) : Bool :=
  (a.num * (b.den : ℤ) < b.num * (a.den : ℤ) + 2 * ((a.den : ℤ) * b.den))
    && (b.num * (a.den : ℤ) < a.num * (b.den : ℤ) + 2 * ((b.den : ℤ) * a.den))

/-- Event key used for deduplication, from page.tsx:
`${latestEvent.author}-${latestEvent.timestamp}-${text.substring(0, 50)}`. -/
def mkEventKey (author : String) (timestamp : ℚ) (text : String) : String :=
  author ++ "-" ++ toString timestamp ++ "-" ++ takeChars text 50

/-- Author fallback `latestEvent.author || 'assistant'` from page.tsx. -/
def authorOrAssistant (author : String) : String :=
  if author = "" then "assistant" else author

/-- Check from page.tsx deciding in-place update: the last transcript entry
exists, has the given author, and is marked streaming
(`lastIndex >= 0 && prev[lastIndex].author === a && prev[lastIndex].isStreaming`). -/
def lastStreamingMatches (prev : List Entry) (author : String) : Bool :=
  match prev.getLast? with
  | some last => last.author == author && last.isStreaming
  | none => false

/-- In-place text update of the last (streaming) transcript entry from
page.tsx: `updated[lastIndex] = {...updated[lastIndex], text, isStreaming: true}`. -/
def updateLastText (prev : List Entry) (text : String) : List Entry :=
  match prev.getLast? with
  | some last => prev.dropLast ++ [{ last with text := text, isStreaming := true }]
  | none => prev

/-- Replacement of the last (streaming) transcript entry by the finalized
event from page.tsx: `updated[lastIndex] = {...eventToAdd, isStreaming: false}`. -/
def replaceLastWith (prev : List Entry) (e : Entry) : List Entry :=
  match prev.getLast? with
  | some _ => prev.dropLast ++ [{ e with isStreaming := false }]
  | none => prev

/-- Near-duplicate check from page.tsx: some existing entry has the same
author, identical text, is not streaming, and its timestamp is within 2
seconds of the candidate entry. -/
def isDuplicateIn (prev : List Entry) (e : Entry) : Bool :=
  prev.any fun en =>
    en.author == e.author && en.text == e.text && !en.isStreaming &&
      absDiffLtTwo en.timestamp e.timestamp

/-- The `eventToAdd` object built by the effect in page.tsx. -/
def mkEventToAdd (latest : SSEEvent) : Entry :=
  { id := latest.id
    author := authorOrAssistant latest.author
    text := latest.text
    timestamp := latest.timestamp
    isStreaming := latest.isStreaming }

/-- The SSE-processing effect of page.tsx applied to one latest event: the
body of the effect from the text extraction through the `setSessionEvents`
updater, including the `processedEventsRef` bookkeeping and the
`setLastAiResponse` side effect for coordinator messages. -/
def applyEvent (st : PageState) (latest : SSEEvent) : PageState :=
  let text := latest.text
  if text = "" then st
  else
    let eventKey := mkEventKey latest.author latest.timestamp text
    if st.processedEvents.contains eventKey && !latest.isStreaming then st
    else
      let prev := st.sessionEvents
      if (latest.isStreaming || latest.interim) &&
          lastStreamingMatches prev latest.author then
        { st with sessionEvents := updateLastText prev text }
      else
        let eventToAdd := mkEventToAdd latest
        if !latest.interim && !latest.isStreaming then
          let st1 : PageState :=
            { st with
              processedEvents := st.processedEvents ++ [eventKey]
              lastAiResponse :=
                if latest.author = coordinatorAuthor then text
                else st.lastAiResponse }
          if lastStreamingMatches prev eventToAdd.author then
            { st1 with sessionEvents := replaceLastWith prev eventToAdd }
          else if isDuplicateIn prev eventToAdd then st1
          else { st1 with sessionEvents := prev ++ [eventToAdd] }
        else if isDuplicateIn prev eventToAdd then st
        else { st with sessionEvents := prev ++ [eventToAdd] }

/-- The effect as triggered by a change of the `sseEvents` array: it returns
early when the array is empty and otherwise processes the last element. -/
def applyExposed (st : PageState) (sseEvents : List SSEEvent) : PageState :=
  match sseEvents.getLast? with
  | none => st
  | some latest => applyEvent st latest

/-! ### The streaming transport (the useSSE hook) -/

/-- Insertion-ordered association list standing for a JS `Map`: `set` on an
existing key updates the value in place, otherwise it appends. -/
def mapSet (m : List (String × String)) (k : String) (v : String) :
    List (String × String) :=
  if m.any (fun p => p.1 == k) then
    m.map fun p => if p.1 == k then (k, v) else p
  else m ++ [(k, v)]

/-- JS `Map.get` with a missing key giving `undefined`, modelled as `none`. -/
def mapGet (m : List (String × String)) (k : String) : Option String :=
  (m.find? (fun p => p.1 == k)).map (·.2)

/-- JS `Map.delete`. -/
def mapDelete (m : List (String × String)) (k : String) :
    List (String × String) :=
  m.filter fun p => !(p.1 == k)

/-- Local state of one `sendMessage` call of the useSSE hook:
`streamingMessagesRef` (accumulated text per invocation id), the local
`finalEvents` array, the current value of the exposed `events` React state,
and the list of successive values it has been set to during the call. -/
structure TransportState where
  streamingMessages : List (String × String)
  finalEvents : List SSEEvent
  events : List SSEEvent
  history : List (List SSEEvent)
deriving DecidableEq, Repr

/-- Transport state right after the start of `sendMessage`: the hook clears
the streaming map and sets `events` to the empty array. -/
def initialTransport : TransportState :=
  { streamingMessages := [], finalEvents := [], events := [], history := [[]] }

/-- Record one `setEvents` call of the hook. -/
def setEventsTo (st : TransportState) (es : List SSEEvent) : TransportState :=
  { st with events := es, history := st.history ++ [es] }

/-- Processing of one successfully parsed fragment by `sendMessage`
(the three branches on `data.invocation_id` and `data.partial`):
a partial fragment accumulates its text into the streaming map and exposes a
single synthetic streaming event; a terminal fragment with an invocation id
clears the map entry, records the complete event, and exposes it alone; any
other fragment is recorded and the accumulated `finalEvents` list is exposed. -/
def processData (st : TransportState) (data : SSEEvent) : TransportState :=
  if data.invocationId ≠ "" && data.interim then
    let currentText := (mapGet st.streamingMessages data.invocationId).getD ""
    let newText := data.text
    let streamingEvent : SSEEvent :=
      { data with text := currentText ++ newText, isStreaming := true }
    let st := { st with
      streamingMessages :=
        mapSet st.streamingMessages data.invocationId (currentText ++ newText) }
    setEventsTo st [streamingEvent]
  else if data.invocationId ≠ "" && !data.interim then
    let completeEvent : SSEEvent := { data with isStreaming := false }
    let st := { st with
      streamingMessages := mapDelete st.streamingMessages data.invocationId
      finalEvents := st.finalEvents ++ [completeEvent] }
    setEventsTo st [completeEvent]
  else
    let st := { st with finalEvents := st.finalEvents ++ [data] }
    setEventsTo st st.finalEvents

/-- One line of the SSE response body at the granularity the claims need:
a `data: `-prefixed line whose JSON payload either parses to a fragment or is
malformed, or any other line. The byte-level chunk buffering and JSON
parsing are environment code and are modelled at this line granularity. -/
inductive StreamItem where
  | dataLine (parsed : Option SSEEvent)
  | otherLine
deriving DecidableEq, Repr

/-- Processing of one complete line by the read loop of `sendMessage`:
non-`data:` lines are ignored, malformed JSON is logged and skipped, parsed
fragments go through `processData`. -/
def processItem (st : TransportState) (item : StreamItem) : TransportState :=
  match item with
  | .dataLine (some data) => processData st data
  | .dataLine none => st
  | .otherLine => st

/-- Outcome of the single `fetch` issued by `sendMessage`: a network-level
failure (the promise rejects), or a response with an `ok` flag and a body
delivered as stream lines. -/
inductive FetchOutcome where
  | netError
  | response (ok : Bool) (items : List StreamItem)
deriving DecidableEq, Repr

/-- Observable result of one `sendMessage` call: the final value of the
exposed `events` state, the full list of successive `events` values, the
final value of `isLoading`, and whether the call rejected so that the caller
can observe a failure. -/
structure SendResult where
  events : List SSEEvent
  history : List (List SSEEvent)
  isLoading : Bool
  errorSurfaced : Bool
deriving DecidableEq, Repr

/-- The `sendMessage` function of the useSSE hook. A non-ok response makes
the function throw, but the throw is caught by the surrounding
`catch (error) { console.error(...) }`, which does not rethrow; the
`finally` block resets `isLoading`. Hence no path surfaces an error to the
caller. -/
def sendMessage (fo : FetchOutcome) : SendResult :=
  let st0 := initialTransport
  match fo with
  | .netError =>
      { events := st0.events, history := st0.history
        isLoading := false, errorSurfaced := false }
  | .response ok items =>
      if !ok then
        { events := st0.events, history := st0.history
          isLoading := false, errorSurfaced := false }
      else
        let st := items.foldl processItem st0
        { events := st.events, history := st.history
          isLoading := false, errorSurfaced := false }

/-! ### Composition of transport and page reconciler -/

/-- Combined state: the transport state of the in-flight `sendMessage` call
and the chat page state. -/
structure SystemState where
  transport : TransportState
  page : PageState
deriving DecidableEq, Repr

/-- Delivery of one parsed fragment: the transport processes it (updating
the exposed `events` array) and the page effect runs on the new array. -/
def stepFragment (s : SystemState) (data : SSEEvent) : SystemState :=
  let t := processData s.transport data
  { transport := t, page := applyExposed s.page t.events }

/-- Delivery of a whole sequence of parsed fragments, in arrival order. -/
def runFragments (s : SystemState) (frags : List SSEEvent) : SystemState :=
  frags.foldl stepFragment s

/-! ### The voice pipeline (MessageInput component)

The part relevant to the claims: the module-level `ttsCache` (a `TTSCache`
with `maxSize = 20` and a key derived via `btoa` from the first 50
characters of the text), `stopCurrentAudio`, `startListening`, and
`generateAndPlayTTS`. -/

/-- Raw audio bytes returned by the synthesis endpoint. -/
abbrev AudioBuffer := List Nat

/-- The `voiceConfig` prop of MessageInput. -/
structure VoiceConfig where
  languageCode : String
  name : String
  ssmlGender : String
deriving DecidableEq, Repr

/-- The standard base64 alphabet used by `btoa`. -/
def b64Alphabet : List Char :=
  "ABCDEFGHIJKLMNOPQRSTUVWXYZabcdefghijklmnopqrstuvwxyz0123456789+/".toList

/-- Character of the base64 alphabet at the given 6-bit index. -/
def b64Char (n : Nat) : Char := b64Alphabet.getD n 'A'

/-- Base64 encoding of a byte list, with `=` padding, as produced by the
browser `btoa` builtin. -/
def b64encode : List Nat → List Char
  | [] => []
  | [b1] => [b64Char (b1 / 4), b64Char (b1 % 4 * 16), '=', '=']
  | [b1, b2] =>
      [b64Char (b1 / 4), b64Char (b1 % 4 * 16 + b2 / 16),
       b64Char (b2 % 16 * 4), '=']
  | b1 :: b2 :: b3 :: rest =>
      b64Char (b1 / 4) :: b64Char (b1 % 4 * 16 + b2 / 16) ::
        b64Char (b2 % 16 * 4 + b3 / 64) :: b64Char (b3 % 64) ::
          b64encode rest

/-- The browser `btoa` builtin on a string of Latin-1 code points (its
domain: it throws on code points above 255, which never arise in the texts
the claims quantify over). -/
def btoa (s : String) : String :=
  String.mk (b64encode (s.toList.map Char.toNat))

/-- The `TTSCache.hashText` key function of MessageInput:
`btoa(text.substring(0, 50)).replace(/[^a-zA-Z0-9]/g, '')`. -/
def hashText (text : String) : String :=
  String.mk ((btoa (takeChars text 50)).toList.filter fun c => c.isAlphanum)

/-- The `TTSCache.get` lookup: the stored buffer for `hashText text`, or
`null` on a miss. -/
def cacheGet (cache : List (String × AudioBuffer)) (text : String) :
    Option AudioBuffer :=
  (cache.find? (fun p => p.1 == hashText text)).map (·.2)

/-- Maximum number of entries of the MessageInput `TTSCache`. -/
def ttsCacheMaxSize : Nat := 20

/-- The capacity check at the head of `TTSCache.set`: when the cache is at
capacity, the first inserted key is deleted. -/
def cacheEvict (cache : List (String × AudioBuffer)) :
    List (String × AudioBuffer) :=
  if ttsCacheMaxSize ≤ cache.length then
    match cache.head? with
    | some (firstKey, _) => cache.filter fun p => !(p.1 == firstKey)
    | none => cache
  else cache

/-- The `TTSCache.set` insertion: the capacity eviction, then the buffer is
stored under `hashText text` (a JS `Map.set` updates an existing key in
place, else appends). -/
def cacheSet (cache : List (String × AudioBuffer)) (text : String)
    (buf : AudioBuffer) : List (String × AudioBuffer) :=
  let cache := cacheEvict cache
  if cache.any (fun p => p.1 == hashText text) then
    cache.map fun p => if p.1 == hashText text then (hashText text, buf) else p
  else cache ++ [(hashText text, buf)]

/-- Voice-session state of MessageInput: the React flags, the refs that
carry the playback source and the pending synthesis abort controller, the
availability of the speech-recognition constructor, and the module-level
audio cache. -/
structure VoiceState where
  isListening : Bool
  isMuted : Bool
  isPlaying : Bool
  isGeneratingTTS : Bool
  conversationMode : Bool
  currentAudioSource : Bool
  pendingTTS : Bool
  recognitionSupported : Bool
  cache : List (String × AudioBuffer)
deriving DecidableEq, Repr

/-- The `stopCurrentAudio` callback: stop and drop the playback source,
abort and drop any pending synthesis call, and reset the `isPlaying` and
`isGeneratingTTS` flags. -/
def stopCurrentAudio (s : VoiceState) : VoiceState :=
  { s with currentAudioSource := false, pendingTTS := false,
           isPlaying := false, isGeneratingTTS := false }

/-- The `startListening` callback: a no-op when recognition is unavailable
or capture is already active; otherwise it first stops any current audio
and then starts the recognizer (whose `onstart` handler sets `isListening`).
The `recognition.start()` call sits in a try/catch; `startSucceeds` is false
when it throws, in which case the failure is only logged. -/
def startListening (s : VoiceState) (startSucceeds : Bool) : VoiceState :=
  if !s.recognitionSupported || s.isListening then s
  else
    let s := stopCurrentAudio s
    if startSucceeds then { s with isListening := true } else s

/-- The start of playback in `playAudioBuffer`: the `isPlaying` flag is set
and the decoded source is stored and started (completion callbacks are a
later, separate event and are not part of this step). -/
def playAudioBuffer (s : VoiceState) : VoiceState :=
  { s with isPlaying := true, currentAudioSource := true }

/-- Outcome of the synthesis `fetch` of `generateAndPlayTTS`: the request
or the body read was aborted or failed (the awaited promise rejects), the
response had a non-ok status, or the complete body arrived; in the last
case `abortedLate` records whether the abort controller had fired by the
time the `abortController.signal.aborted` guard before playback runs. -/
inductive TTSFetchResult where
  | abortedNet
  | httpError (status : Nat)
  | ok (bytes : AudioBuffer) (abortedLate : Bool)
deriving DecidableEq, Repr

/-- Observable outcome of one `generateAndPlayTTS` call: the resulting
state, how many network requests the call issued, the voice configuration
sent in the request body when one was issued, and the audio buffer whose
playback it started, if any. -/
structure TTSOutcome where
  state : VoiceState
  networkCalls : Nat
  requestedVoice : Option VoiceConfig
  playedBuf : Option AudioBuffer
deriving DecidableEq, Repr

/-- The `generateAndPlayTTS` callback: guard clauses for mute, empty text
and texts shorter than 10 characters; cancellation of any current audio;
cache lookup short-circuiting the network; otherwise one POST to the
synthesis endpoint whose successful result is cached and, unless the abort
signal has fired, played; the `finally` block resets `isGeneratingTTS`. -/
def generateAndPlayTTS (s : VoiceState) (text : String) (vc : VoiceConfig)
    (fr : TTSFetchResult) : TTSOutcome :=
  if s.isMuted || jsTrim text = "" || text.length < 10 then
    { state := s, networkCalls := 0, requestedVoice := none, playedBuf := none }
  else
    let s := stopCurrentAudio s
    match cacheGet s.cache text with
    | some cachedAudio =>
        { state := playAudioBuffer s, networkCalls := 0,
          requestedVoice := none, playedBuf := some cachedAudio }
    | none =>
        let s := { s with isGeneratingTTS := true, pendingTTS := true }
        match fr with
        | .abortedNet =>
            { state := { s with isGeneratingTTS := false },
              networkCalls := 1, requestedVoice := some vc, playedBuf := none }
        | .httpError _ =>
            { state := { s with isGeneratingTTS := false },
              networkCalls := 1, requestedVoice := some vc, playedBuf := none }
        | .ok bytes abortedLate =>
            let s := { s with cache := cacheSet s.cache text bytes }
            if abortedLate then
              { state := { s with isGeneratingTTS := false },
                networkCalls := 1, requestedVoice := some vc, playedBuf := none }
            else
              { state := { playAudioBuffer s with isGeneratingTTS := false },
                networkCalls := 1, requestedVoice := some vc,
                playedBuf := some bytes }

/-! ### Concrete example inputs used by counterexamples and witnesses -/

/-- A user transcript entry, as `handleSendMessage` appends it. -/
def userEntry : Entry :=
  { id := some "u1", author := "user", text := "Find me a market gap",
    timestamp := 0, isStreaming := false }

/-- Page state holding one finalized user message. -/
def pageAfterUser : PageState :=
  { processedEvents := [], sessionEvents := [userEntry], lastAiResponse := "" }

/-- A partial fragment of invocation `i1` with the given text and timestamp,
as parsed from the wire (so `isStreaming` is not yet set). -/
def mkPartialFrag (t : String) (ts : ℚ) : SSEEvent :=
  { id := some "e1", author := "agentA", text := t, timestamp := ts,
    interim := true, invocationId := "i1", isStreaming := false }

/-- The terminal fragment of invocation `i1` with text `"Hello"`. -/
def terminalHello : SSEEvent :=
  { id := some "e1", author := "agentA", text := "Hello", timestamp := 11,
    interim := false, invocationId := "i1", isStreaming := false }

/-- An already-finalized entry from agentA with text `"x"`. -/
def dupEntry : Entry :=
  { id := some "d", author := "agentA", text := "x", timestamp := 0,
    isStreaming := false }

/-- A still-streaming entry from agentA. -/
def streamEntry : Entry :=
  { id := some "s", author := "agentA", text := "Hel", timestamp := 5,
    isStreaming := true }

/-- Page state whose transcript holds the finalized duplicate and, last, a
streaming entry from the same author. -/
def pageDupStream : PageState :=
  { processedEvents := [], sessionEvents := [dupEntry, streamEntry],
    lastAiResponse := "" }

/-- A terminal fragment from agentA that duplicates `dupEntry` (same author,
identical text, timestamp within 2 seconds). -/
def dupFrag : SSEEvent :=
  { id := some "f3", author := "agentA", text := "x", timestamp := 1,
    interim := false, invocationId := "", isStreaming := false }

/-- A finalized entry from author B. -/
def bFinalEntry : Entry :=
  { id := some "b0", author := "B", text := "hello world", timestamp := 0,
    isStreaming := false }

/-- A streaming entry from author A. -/
def aStreamEntry : Entry :=
  { id := some "a1", author := "A", text := "partway", timestamp := 5,
    isStreaming := true }

/-- Page state whose last entry is a streaming entry from author A, with an
older finalized entry from author B before it. -/
def pageCrossAuthor : PageState :=
  { processedEvents := [], sessionEvents := [bFinalEntry, aStreamEntry],
    lastAiResponse := "" }

/-- A partial fragment from author B (as exposed by the transport) whose
text duplicates `bFinalEntry` within the 2-second window. -/
def bPartialFrag : SSEEvent :=
  { id := some "f4", author := "B", text := "hello world", timestamp := 1,
    interim := true, invocationId := "i9", isStreaming := true }

/-- A regular fragment without an invocation id. -/
def regFrag : SSEEvent :=
  { id := some "r", author := "agentA", text := "hi", timestamp := 1,
    interim := false, invocationId := "", isStreaming := false }

/-- A partial fragment of invocation `i1` carrying text `"H"`. -/
def parFrag : SSEEvent :=
  { id := some "p", author := "agentA", text := "H", timestamp := 2,
    interim := true, invocationId := "i1", isStreaming := false }

/-- The synthetic streaming event the transport exposes for `parFrag` when
the accumulator is empty. -/
def parFragExposed : SSEEvent :=
  { id := some "p", author := "agentA", text := "H", timestamp := 2,
    interim := true, invocationId := "i1", isStreaming := true }

/-- The default voice configuration of MessageInput. -/
def demoVc : VoiceConfig :=
  { languageCode := "en-US", name := "en-US-Neural2-F", ssmlGender := "FEMALE" }

/-- A different voice configuration. -/
def demoVc2 : VoiceConfig :=
  { languageCode := "en-GB", name := "en-GB-Neural2-A", ssmlGender := "MALE" }

/-- Some synthesized audio bytes. -/
def demoBuf : AudioBuffer := [1, 2, 3]

/-- A voice state in which capture is active, nothing is muted and the
module cache already holds audio for `"hello world test"`. -/
def voiceListening : VoiceState :=
  { isListening := true, isMuted := false, isPlaying := false,
    isGeneratingTTS := false, conversationMode := false,
    currentAudioSource := false, pendingTTS := false,
    recognitionSupported := true,
    cache := [(hashText "hello world test", demoBuf)] }

/-- A quiescent voice state with an empty audio cache. -/
def voiceIdle : VoiceState :=
  { isListening := false, isMuted := false, isPlaying := false,
    isGeneratingTTS := false, conversationMode := false,
    currentAudioSource := false, pendingTTS := false,
    recognitionSupported := true, cache := [] }

/-- A 54-character text: 50 copies of `x` followed by `AAAA`. -/
def longTextA : String :=
  "xxxxxxxxxxxxxxxxxxxxxxxxxxxxxxxxxxxxxxxxxxxxxxxxxxAAAA"

/-- A text agreeing with `longTextA` on the first 50 characters but
differing afterwards. -/
def longTextB : String :=
  "xxxxxxxxxxxxxxxxxxxxxxxxxxxxxxxxxxxxxxxxxxxxxxxxxxBBBB"

/-! ## Theorems -/

/-- C5, counterexample. On a non-2xx response, `sendMessage` resolves
normally: the thrown HTTP error is caught and only logged, so the caller
cannot observe the failure, contradicting the claim that the error is
surfaced to the caller. The other parts of the claim do hold at this input:
no fragments are exposed and `isLoading` ends false. -/
theorem sendMessage_non2xx_cex :
    (sendMessage (.response false [.dataLine (some regFrag)])).errorSurfaced
        = false ∧
      (sendMessage (.response false [.dataLine (some regFrag)])).events = [] ∧
      (sendMessage (.response false [.dataLine (some regFrag)])).isLoading
        = false := by
  decide

/-- C5, amended. A non-2xx HTTP status aborts the call before any body
processing, the error is caught and logged inside `sendMessage` and is not
surfaced to the caller (the call resolves normally), no fragments are
exposed (the `events` state keeps the empty value it was reset to), and
`isLoading` ends false. -/
theorem sendMessage_non2xx_silent (items : List StreamItem) :
    sendMessage (.response false items) =
      { events := [], history := [[]], isLoading := false,
        errorSurfaced := false } := by
  rfl

/-- C6, counterexample. A regular fragment followed by a partial fragment
makes the exposed `events` value go from `[regFrag]` to a singleton holding
only the synthetic streaming event: the previously exposed fragment is
dropped, so the exposed sequence of fragments is not append-only. -/
theorem sse_append_only_cex :
    (sendMessage (.response true
        [.dataLine (some regFrag), .dataLine (some parFrag)])).history =
      [[], [regFrag], [parFragExposed]] ∧
    ¬ ∃ t, [parFragExposed] = [regFrag] ++ t := by
  refine ⟨by decide, ?_⟩
  rintro ⟨t, ht⟩
  have h : parFragExposed = regFrag := by
    have := congrArg List.head? ht
    simpa using this
  exact absurd h (by decide)

/-- C6, amended. The value exposed through `setEvents` is not append-only:
partial and terminal fragments of an invocation replace it with a
one-element array holding only that fragment. What is append-only is the
internal `finalEvents` accumulator: processing one line either leaves it
unchanged or appends exactly one event at its end. -/
theorem finalEvents_append_only (st : TransportState) (item : StreamItem) :
    (processItem st item).finalEvents = st.finalEvents ∨
      ∃ e, (processItem st item).finalEvents = st.finalEvents ++ [e] := by
  match item with
  | .dataLine none => exact Or.inl rfl
  | .otherLine => exact Or.inl rfl
  | .dataLine (some data) =>
    by_cases h1 : data.invocationId ≠ "" ∧ data.interim = true
    · left
      simp [processItem, processData, h1.1, h1.2, setEventsTo]
    · by_cases h2 : data.invocationId ≠ ""
      · have h3 : data.interim = false := by
          rcases Bool.eq_false_or_eq_true data.interim with h | h
          · exact absurd ⟨h2, h⟩ h1
          · exact h
        right
        exact ⟨{ data with isStreaming := false }, by
          simp [processItem, processData, h2, h3, setEventsTo]⟩
      · right
        refine ⟨data, ?_⟩
        simp only [ne_eq, not_not] at h2
        simp [processItem, processData, h2, setEventsTo]

/-- C7, counterexample. Invoking the synthesis pipeline while capture is
active does not stop capture: from a state with `isListening = true` and
cached audio for the text, `generateAndPlayTTS` starts playback and leaves
`isListening` true, so listening and playing hold simultaneously,
contradicting the claimed mutual exclusion in the speak direction. -/
theorem speak_while_listening_cex :
    voiceListening.isListening = true ∧
      (generateAndPlayTTS voiceListening "hello world test" demoVc
          .abortedNet).state.isListening = true ∧
      (generateAndPlayTTS voiceListening "hello world test" demoVc
          .abortedNet).state.isPlaying = true := by
  decide

/-- C7, amended. The capture direction of the mutual exclusion does hold:
invoking `startListening` when capture is not yet active first stops the
in-flight playback and aborts any pending synthesis, so `isPlaying` and
`isGeneratingTTS` are false (and the pending request is gone) when capture
begins. The synthesis direction is not enforced: `generateAndPlayTTS` never
stops capture (capture is only stopped separately by `processSpeech` before
a recognized utterance is dispatched). -/
theorem startListening_stops_playback (s : VoiceState)
    (hr : s.recognitionSupported = true) (hl : s.isListening = false) :
    (startListening s true).isPlaying = false ∧
      (startListening s true).isGeneratingTTS = false ∧
      (startListening s true).pendingTTS = false ∧
      (startListening s true).isListening = true := by
  simp [startListening, stopCurrentAudio, hr, hl]

/-- C7, witness for the amended theorem at a concrete idle state. -/
theorem startListening_stops_playback_witness :
    voiceIdle.recognitionSupported = true ∧ voiceIdle.isListening = false ∧
      (startListening voiceIdle true).isPlaying = false ∧
      (startListening voiceIdle true).isListening = true := by
  refine ⟨by decide, by decide, ?_⟩
  have h := startListening_stops_playback voiceIdle (by decide) (by decide)
  exact ⟨h.1, h.2.2.2⟩

/-- C8, counterexample. A synthesis call whose abort controller fires after
the response body has been fully received but before the pre-playback
`aborted` check never plays (so it did not complete), yet it has inserted
the fetched bytes into the audio cache, contradicting the claim that an
aborted call leaves the cache unchanged. -/
theorem tts_abort_cache_cex :
    voiceIdle.cache = [] ∧
      (generateAndPlayTTS voiceIdle "hello world test" demoVc
          (.ok demoBuf true)).playedBuf = none ∧
      (generateAndPlayTTS voiceIdle "hello world test" demoVc
          (.ok demoBuf true)).state.cache =
        [(hashText "hello world test", demoBuf)] := by
  decide

/-- C8, amended. When the abort lands during the network phase (the fetch
or the body read rejects), the cache is left unchanged and the
`isGeneratingTTS` and `isPlaying` flags end false with no playback started;
only an abort observed after the body has been fully received still caches
the complete bytes (playback is then skipped). -/
theorem tts_abort_net_cache_unchanged (s : VoiceState) (text : String)
    (vc : VoiceConfig) (hm : s.isMuted = false) (htr : ¬ jsTrim text = "")
    (hlen : 10 ≤ text.length) (hmiss : cacheGet s.cache text = none) :
    (generateAndPlayTTS s text vc .abortedNet).state.cache = s.cache ∧
      (generateAndPlayTTS s text vc .abortedNet).state.isGeneratingTTS
        = false ∧
      (generateAndPlayTTS s text vc .abortedNet).state.isPlaying = false ∧
      (generateAndPlayTTS s text vc .abortedNet).playedBuf = none := by
  have hlen' : ¬ text.length < 10 := by omega
  simp [generateAndPlayTTS, hm, htr, hlen', stopCurrentAudio] at *
  simp [hmiss]

/-- Cross-multiplied characterization of the upper half of the 2-second
window. -/
theorem sub_lt_two_cross (a b : ℚ) :
    a - b < 2 ↔
      a.num * (b.den : ℤ) < b.num * (a.den : ℤ) + 2 * ((a.den : ℤ) * b.den) := by
  have hda : (0:ℚ) < (a.den : ℚ) := by exact_mod_cast a.den_pos
  have hdb : (0:ℚ) < (b.den : ℚ) := by exact_mod_cast b.den_pos
  have ka : a * (a.den : ℚ) = (a.num : ℚ) := by
    nth_rewrite 1 [← Rat.num_div_den a]
    exact div_mul_cancel₀ _ (ne_of_gt hda)
  have kb : b * (b.den : ℚ) = (b.num : ℚ) := by
    nth_rewrite 1 [← Rat.num_div_den b]
    exact div_mul_cancel₀ _ (ne_of_gt hdb)
  have hprod : (0:ℚ) < (a.den : ℚ) * (b.den : ℚ) := mul_pos hda hdb
  rw [← mul_lt_mul_right hprod]
  have lhs_eq : (a - b) * ((a.den : ℚ) * (b.den : ℚ))
      = (a.num : ℚ) * (b.den : ℚ) - (b.num : ℚ) * (a.den : ℚ) := by
    calc (a - b) * ((a.den : ℚ) * (b.den : ℚ))
        = (a * (a.den : ℚ)) * (b.den : ℚ) - (b * (b.den : ℚ)) * (a.den : ℚ) := by
          ring
      _ = (a.num : ℚ) * (b.den : ℚ) - (b.num : ℚ) * (a.den : ℚ) := by
          rw [ka, kb]
  rw [lhs_eq, sub_lt_iff_lt_add]
  rw [show (2:ℚ) * ((a.den : ℚ) * (b.den : ℚ)) + (b.num : ℚ) * (a.den : ℚ)
        = (((b.num * (a.den : ℤ) + 2 * ((a.den : ℤ) * b.den)) : ℤ) : ℚ) by
      push_cast
      ring]
  rw [show ((a.num : ℚ) * (b.den : ℚ))
        = (((a.num * (b.den : ℤ)) : ℤ) : ℚ) by
      push_cast
      ring]
  exact Int.cast_lt

/-- The cross-multiplied window check agrees with `Math.abs(a - b) < 2`. -/
theorem absDiffLtTwo_iff (a b : ℚ) :
    absDiffLtTwo a b = true ↔ |a - b| < 2 := by
  rw [absDiffLtTwo, Bool.and_eq_true, decide_eq_true_eq, decide_eq_true_eq,
    abs_sub_lt_iff]
  exact and_congr (sub_lt_two_cross a b).symm (sub_lt_two_cross b a).symm

/-- Appending to a nonempty string keeps it nonempty. -/
theorem append_ne_empty {a : String} (b : String) (h : ¬ a = "") :
    ¬ (a ++ b) = "" := by
  intro hc
  apply h
  have hd := congrArg String.data hc
  simp [String.data_append] at hd
  exact String.ext hd.1

/-- On a transcript whose entries are all finalized, the in-place-update
check never fires. -/
theorem lastStreamingMatches_final {l : List Entry}
    (h : ∀ e ∈ l, e.isStreaming = false) (a : String) :
    lastStreamingMatches l a = false := by
  unfold lastStreamingMatches
  cases hl : l.getLast? with
  | none => rfl
  | some last =>
    have hm : last ∈ l := List.mem_of_mem_getLast? (by rw [hl]; rfl)
    simp [h last hm]

/-- Streaming phase invariant: once the transcript ends in a streaming
entry from author `A` whose invocation accumulator is the only entry of the
transport map, delivering any further partial fragments of the same
invocation only rewrites that accumulator and that entry text in place —
the rest of the page state is untouched and no entry is added or removed. -/
theorem partialRun (i A : String) (hi : ¬ i = "") :
    ∀ (ps : List SSEEvent),
      (∀ p ∈ ps, p.invocationId = i ∧ p.interim = true ∧ p.author = A) →
      ∀ (acc te : String), ¬ acc = "" →
      ∀ (eid : Option String) (ts : ℚ) (fe ex : List SSEEvent)
        (hist : List (List SSEEvent)) (base : List Entry)
        (procs : List String) (lai : String),
      ∃ acc' te' ex' hist', ¬ acc' = "" ∧
        runFragments
          { transport :=
              { streamingMessages := [(i, acc)], finalEvents := fe,
                events := ex, history := hist },
            page :=
              { processedEvents := procs,
                sessionEvents := base ++
                  [{ id := eid, author := A, text := te, timestamp := ts,
                     isStreaming := true }],
                lastAiResponse := lai } } ps =
        { transport :=
            { streamingMessages := [(i, acc')], finalEvents := fe,
              events := ex', history := hist' },
          page :=
            { processedEvents := procs,
              sessionEvents := base ++
                [{ id := eid, author := A, text := te', timestamp := ts,
                   isStreaming := true }],
              lastAiResponse := lai } } := by
  intro ps
  induction ps with
  | nil =>
    intro _ acc te hacc eid ts fe ex hist base procs lai
    exact ⟨acc, te, ex, hist, hacc, rfl⟩
  | cons p ps ih =>
    intro hps acc te hacc eid ts fe ex hist base procs lai
    obtain ⟨hpi, hpI, hpA⟩ := hps p (List.mem_cons_self p ps)
    have hps' : ∀ q ∈ ps,
        q.invocationId = i ∧ q.interim = true ∧ q.author = A :=
      fun q hq => hps q (List.mem_cons_of_mem p hq)
    have hne := append_ne_empty p.text hacc
    have hstep :
        stepFragment
          { transport :=
              { streamingMessages := [(i, acc)], finalEvents := fe,
                events := ex, history := hist },
            page :=
              { processedEvents := procs,
                sessionEvents := base ++
                  [{ id := eid, author := A, text := te, timestamp := ts,
                     isStreaming := true }],
                lastAiResponse := lai } } p =
          { transport :=
              { streamingMessages := [(i, acc ++ p.text)], finalEvents := fe,
                events :=
                  [{ p with text := acc ++ p.text, isStreaming := true }],
                history := hist ++
                  [[{ p with text := acc ++ p.text, isStreaming := true }]] },
            page :=
              { processedEvents := procs,
                sessionEvents := base ++
                  [{ id := eid, author := A, text := acc ++ p.text,
                     timestamp := ts, isStreaming := true }],
                lastAiResponse := lai } } := by
      simp only [stepFragment, processData, hpi, hpI]
      simp only [hi, ne_eq, not_false_eq_true]
      simp [mapGet, mapSet, setEventsTo, applyExposed, applyEvent, hne, hpA,
        lastStreamingMatches, List.getLast?_concat, updateLastText,
        List.dropLast_concat, mkEventKey]
    rw [show runFragments
          { transport :=
              { streamingMessages := [(i, acc)], finalEvents := fe,
                events := ex, history := hist },
            page :=
              { processedEvents := procs,
                sessionEvents := base ++
                  [{ id := eid, author := A, text := te, timestamp := ts,
                     isStreaming := true }],
                lastAiResponse := lai } } (p :: ps) =
        runFragments
          (stepFragment
            { transport :=
                { streamingMessages := [(i, acc)], finalEvents := fe,
                  events := ex, history := hist },
              page :=
                { processedEvents := procs,
                  sessionEvents := base ++
                    [{ id := eid, author := A, text := te, timestamp := ts,
                       isStreaming := true }],
                  lastAiResponse := lai } } p) ps from rfl]
    rw [hstep]
    exact ih hps' (acc ++ p.text) (acc ++ p.text) hne eid ts fe _ _ base
      procs lai

/-- C1. Streaming convergence: starting a fresh `sendMessage` stream over
any transcript whose entries are all finalized, a nonempty sequence of
partial fragments of one invocation (first fragment text nonempty, not
near-duplicating an existing entry) followed by a single terminal fragment
with text `T` (its event key not yet processed) leaves the transcript equal
to the original plus exactly one new finalized entry with text `T` and
`isStreaming = false` — no leftover streaming entry and no second entry for
the invocation. -/
theorem sse_streaming_convergence (i A T : String) (p1 f : SSEEvent)
    (rest : List SSEEvent) (p0 : PageState)
    (hi : ¬ i = "") (hA : ¬ A = "") (hT : ¬ T = "")
    (hp1i : p1.invocationId = i) (hp1I : p1.interim = true)
    (hp1A : p1.author = A) (hp1t : ¬ p1.text = "")
    (hrest : ∀ p ∈ rest, p.invocationId = i ∧ p.interim = true ∧ p.author = A)
    (hfi : f.invocationId = i) (hfI : f.interim = false)
    (hfA : f.author = A) (hfT : f.text = T)
    (hns : ∀ e ∈ p0.sessionEvents, e.isStreaming = false)
    (hdup1 : isDuplicateIn p0.sessionEvents
      { id := p1.id, author := A, text := p1.text, timestamp := p1.timestamp,
        isStreaming := true } = false)
    (hkey : ¬ mkEventKey A f.timestamp T ∈ p0.processedEvents) :
    (runFragments { transport := initialTransport, page := p0 }
        (p1 :: (rest ++ [f]))).page.sessionEvents =
      p0.sessionEvents ++
        [{ id := f.id, author := A, text := T, timestamp := f.timestamp,
           isStreaming := false }] := by
  have hA' : authorOrAssistant A = A := by simp [authorOrAssistant, hA]
  have hm1 : lastStreamingMatches p0.sessionEvents A = false :=
    lastStreamingMatches_final hns A
  have hstep1 :
      stepFragment { transport := initialTransport, page := p0 } p1 =
        { transport :=
            { streamingMessages := [(i, p1.text)], finalEvents := [],
              events := [{ p1 with text := p1.text, isStreaming := true }],
              history :=
                [[], [{ p1 with text := p1.text, isStreaming := true }]] },
          page :=
            { processedEvents := p0.processedEvents,
              sessionEvents := p0.sessionEvents ++
                [{ id := p1.id, author := A, text := p1.text,
                   timestamp := p1.timestamp, isStreaming := true }],
              lastAiResponse := p0.lastAiResponse } } := by
    simp only [stepFragment, processData, initialTransport, hp1i, hp1I]
    simp only [hi, ne_eq, not_false_eq_true]
    simp [mapGet, mapSet, setEventsTo, applyExposed, applyEvent, hp1t, hp1A,
      hm1, hA', hdup1, mkEventToAdd, String.empty_append]
  rw [show runFragments { transport := initialTransport, page := p0 }
        (p1 :: (rest ++ [f])) =
      runFragments
        (stepFragment { transport := initialTransport, page := p0 } p1)
        (rest ++ [f]) from rfl]
  rw [hstep1]
  obtain ⟨acc', te', ex', hist', hacc', hrun⟩ :=
    partialRun i A hi rest hrest p1.text p1.text hp1t p1.id p1.timestamp
      [] [{ p1 with text := p1.text, isStreaming := true }]
      [[], [{ p1 with text := p1.text, isStreaming := true }]]
      p0.sessionEvents p0.processedEvents p0.lastAiResponse
  rw [show runFragments
        { transport :=
            { streamingMessages := [(i, p1.text)], finalEvents := [],
              events := [{ p1 with text := p1.text, isStreaming := true }],
              history :=
                [[], [{ p1 with text := p1.text, isStreaming := true }]] },
          page :=
            { processedEvents := p0.processedEvents,
              sessionEvents := p0.sessionEvents ++
                [{ id := p1.id, author := A, text := p1.text,
                   timestamp := p1.timestamp, isStreaming := true }],
              lastAiResponse := p0.lastAiResponse } } (rest ++ [f]) =
      runFragments
        (runFragments
          { transport :=
              { streamingMessages := [(i, p1.text)], finalEvents := [],
                events := [{ p1 with text := p1.text, isStreaming := true }],
                history :=
                  [[], [{ p1 with text := p1.text, isStreaming := true }]] },
            page :=
              { processedEvents := p0.processedEvents,
                sessionEvents := p0.sessionEvents ++
                  [{ id := p1.id, author := A, text := p1.text,
                     timestamp := p1.timestamp, isStreaming := true }],
                lastAiResponse := p0.lastAiResponse } } rest) [f] from by
    simp [runFragments, List.foldl_append]]
  rw [hrun]
  simp only [runFragments, List.foldl_cons, List.foldl_nil]
  simp only [stepFragment, processData, hfi, hfI]
  simp only [hi, ne_eq, not_false_eq_true]
  simp [mapDelete, setEventsTo, applyExposed, applyEvent, hfA, hfT, hT,
    hkey, mkEventToAdd, hA', lastStreamingMatches, List.getLast?_concat,
    replaceLastWith, List.dropLast_concat]

/-- C1, witness: the partial fragments carry the texts of the worked
example and the terminal fragment carries `"Hello"`; the run starts from a
transcript holding one finalized user message. -/
theorem sse_streaming_convergence_witness :
    (runFragments { transport := initialTransport, page := pageAfterUser }
        (mkPartialFrag "H" 10 ::
          ([mkPartialFrag "He" 10, mkPartialFrag "Hel" 10,
            mkPartialFrag "Hello" 10] ++ [terminalHello]))).page.sessionEvents =
      pageAfterUser.sessionEvents ++
        [{ id := some "e1", author := "agentA", text := "Hello",
           timestamp := 11, isStreaming := false }] := by
  exact sse_streaming_convergence "i1" "agentA" "Hello"
    (mkPartialFrag "H" 10) terminalHello
    [mkPartialFrag "He" 10, mkPartialFrag "Hel" 10, mkPartialFrag "Hello" 10]
    pageAfterUser (by decide) (by decide) (by decide) (by decide) (by decide)
    (by decide) (by decide) (by decide) (by decide) (by decide) (by decide)
    (by decide) (by decide) (by decide) (by decide)

/-- C2. The reconciliation step is idempotent on terminal (non-partial)
fragments: once such a fragment has been applied, its event key is in the
processed set (or the step was already a no-op), so re-applying the very
same fragment leaves the whole page state — in particular the transcript —
unchanged. -/
theorem reconciler_idempotent (st : PageState) (e : SSEEvent)
    (hI : e.interim = false) (hS : e.isStreaming = false) :
    applyEvent (applyEvent st e) e = applyEvent st e := by
  by_cases ht : e.text = ""
  · simp [applyEvent, ht]
  · by_cases hc :
      mkEventKey e.author e.timestamp e.text ∈ st.processedEvents
    · have h1 : applyEvent st e = st := by
        simp [applyEvent, ht, hc, hS]
      rw [h1]
      exact h1
    · by_cases hm :
          lastStreamingMatches st.sessionEvents (mkEventToAdd e).author = true
      · simp [applyEvent, ht, hc, hI, hS, hm]
      · have hm' :
            lastStreamingMatches st.sessionEvents (mkEventToAdd e).author
              = false := by
          simpa using hm
        by_cases hd : isDuplicateIn st.sessionEvents (mkEventToAdd e) = true
        · simp [applyEvent, ht, hc, hI, hS, hm', hd]
        · have hd' : isDuplicateIn st.sessionEvents (mkEventToAdd e)
              = false := by
            simpa using hd
          simp [applyEvent, ht, hc, hI, hS, hm', hd']

/-- C2, witness: re-applying the terminal fragment of the demo run to the
state it produced changes nothing. -/
theorem reconciler_idempotent_witness :
    terminalHello.interim = false ∧ terminalHello.isStreaming = false ∧
      applyEvent (applyEvent pageAfterUser terminalHello) terminalHello =
        applyEvent pageAfterUser terminalHello :=
  ⟨by decide, by decide,
    reconciler_idempotent pageAfterUser terminalHello (by decide) (by decide)⟩

/-- C3, counterexample. The duplicate check is not reached when the last
transcript entry is a same-author streaming entry: the terminal fragment
then finalizes that entry in place even though an identical finalized entry
(same author, identical text, timestamp within 2 seconds) already exists,
so the transcript changes — it now even holds two identical finalized
entries — instead of the fragment being discarded. -/
theorem dup_suppression_cex :
    (∃ en ∈ pageDupStream.sessionEvents,
        en.author = dupFrag.author ∧ en.text = dupFrag.text ∧
          en.isStreaming = false ∧
          |en.timestamp - dupFrag.timestamp| < 2) ∧
      dupFrag.interim = false ∧ dupFrag.isStreaming = false ∧
      (applyEvent pageDupStream dupFrag).sessionEvents ≠
        pageDupStream.sessionEvents ∧
      (applyEvent pageDupStream dupFrag).sessionEvents =
        [dupEntry,
         { id := some "f3", author := "agentA", text := "x", timestamp := 1,
           isStreaming := false }] := by
  refine ⟨⟨dupEntry, by decide, by decide, by decide, by decide,
    by norm_num [dupEntry, dupFrag]⟩, by decide, by decide, by decide,
    by decide⟩

/-- C3, amended. A finalized fragment that near-duplicates an existing
non-streaming entry (same author, byte-identical text, timestamp within 2
seconds) is discarded and the transcript returned unchanged, provided the
last transcript entry is not a still-streaming entry from the same author —
in that case the fragment instead finalizes the streaming entry in place. -/
theorem dup_suppression_amended (st : PageState) (e : SSEEvent)
    (hI : e.interim = false) (hS : e.isStreaming = false)
    (hA : ¬ e.author = "")
    (hdupP : ∃ en ∈ st.sessionEvents,
      en.author = e.author ∧ en.text = e.text ∧ en.isStreaming = false ∧
        |en.timestamp - e.timestamp| < 2)
    (hlast : lastStreamingMatches st.sessionEvents e.author = false) :
    (applyEvent st e).sessionEvents = st.sessionEvents := by
  have hA' : authorOrAssistant e.author = e.author := by
    simp [authorOrAssistant, hA]
  have hdup : isDuplicateIn st.sessionEvents (mkEventToAdd e) = true := by
    obtain ⟨en, hen, h1, h2, h3, h4⟩ := hdupP
    unfold isDuplicateIn
    rw [List.any_eq_true]
    have hb := (absDiffLtTwo_iff en.timestamp e.timestamp).mpr h4
    exact ⟨en, hen, by simp [mkEventToAdd, hA', h1, h2, h3, hb]⟩
  by_cases ht : e.text = ""
  · simp [applyEvent, ht]
  · by_cases hc :
      mkEventKey e.author e.timestamp e.text ∈ st.processedEvents
    · simp [applyEvent, ht, hc, hS]
    · have hlast' :
          lastStreamingMatches st.sessionEvents (mkEventToAdd e).author
            = false := by
        simpa [mkEventToAdd, hA'] using hlast
      simp [applyEvent, ht, hc, hI, hS, hlast', hdup]

/-- C3, witness for the amended theorem: the duplicate terminal fragment is
discarded when the duplicate entry is the last (non-streaming) entry. -/
theorem dup_suppression_amended_witness :
    lastStreamingMatches [dupEntry] "agentA" = false ∧
      (applyEvent
          { processedEvents := [], sessionEvents := [dupEntry],
            lastAiResponse := "" }
          dupFrag).sessionEvents = [dupEntry] :=
  ⟨by decide,
    dup_suppression_amended
      { processedEvents := [], sessionEvents := [dupEntry],
        lastAiResponse := "" }
      dupFrag (by decide) (by decide) (by decide)
      ⟨dupEntry, by decide, by decide, by decide, by decide,
        by norm_num [dupEntry, dupFrag]⟩
      (by decide)⟩

/-- C4, counterexample. A partial fragment from author B arriving while
author A's entry is streaming is not always appended: when B's fragment
text near-duplicates an existing finalized entry from B, the duplicate
check discards it and the transcript is returned unchanged — no new entry
for B is appended. -/
theorem cross_author_cex :
    lastStreamingMatches pageCrossAuthor.sessionEvents "A" = true ∧
      bPartialFrag.author = "B" ∧ bPartialFrag.interim = true ∧
      ¬ bPartialFrag.text = "" ∧
      (applyEvent pageCrossAuthor bPartialFrag).sessionEvents =
        pageCrossAuthor.sessionEvents := by
  decide

/-- C4, amended. A partial fragment (as exposed by the transport, so with
the streaming flag set) whose author differs from the author of the last,
still-streaming transcript entry is never merged in place: provided its
text is nonempty and does not near-duplicate an existing finalized entry,
it is appended as a new streaming entry, leaving every existing entry —
in particular the other author's streaming entry — unmodified; the in-place
merge only ever happens when the fragment's author equals the last entry's
author and that entry is streaming. -/
theorem cross_author_appends (st : PageState) (e : SSEEvent)
    (lastE : Entry) (hlast : st.sessionEvents.getLast? = some lastE)
    (_hlstream : lastE.isStreaming = true) (hdiff : ¬ lastE.author = e.author)
    (hS : e.isStreaming = true) (ht : ¬ e.text = "")
    (hdup : isDuplicateIn st.sessionEvents (mkEventToAdd e) = false) :
    applyEvent st e =
      { st with sessionEvents := st.sessionEvents ++ [mkEventToAdd e] } := by
  have hnm : lastStreamingMatches st.sessionEvents e.author = false := by
    simp [lastStreamingMatches, hlast, hdiff]
  simp [applyEvent, ht, hS, hnm, hdup]

/-- C4, witness for the amended theorem: a fresh partial fragment from B
appends while A's entry is streaming. -/
theorem cross_author_appends_witness :
    (applyEvent pageCrossAuthor
        { id := some "f5", author := "B", text := "a new thought",
          timestamp := 9, interim := true, invocationId := "i9",
          isStreaming := true }).sessionEvents =
      [bFinalEntry, aStreamEntry,
       { id := some "f5", author := "B", text := "a new thought",
         timestamp := 9, isStreaming := true }] := by
  have h := cross_author_appends pageCrossAuthor
    { id := some "f5", author := "B", text := "a new thought",
      timestamp := 9, interim := true, invocationId := "i9",
      isStreaming := true }
    aStreamEntry (by decide) (by decide) (by decide) (by decide) (by decide)
    (by decide)
  rw [h]
  decide

/-- Membership in the cache after the capacity eviction implies membership
before it. -/
theorem mem_cacheEvict {c : List (String × AudioBuffer)}
    {p : String × AudioBuffer} (h : p ∈ cacheEvict c) : p ∈ c := by
  unfold cacheEvict at h
  split at h
  · split at h
    · exact (List.mem_filter.mp h).1
    · exact h
  · exact h

/-- Storing a buffer under a text that was a cache miss makes the lookup of
that text (and of any text with the same key) return it. -/
theorem cacheGet_cacheSet_self (c : List (String × AudioBuffer)) (t : String)
    (b : AudioBuffer) (h : cacheGet c t = none) :
    cacheGet (cacheSet c t b) t = some b := by
  have hfind : c.find? (fun p => p.1 == hashText t) = none := by
    unfold cacheGet at h
    exact Option.map_eq_none'.mp h
  have hall : ∀ p ∈ c, (p.1 == hashText t) = false := by
    intro p hp
    have := List.find?_eq_none.mp hfind p hp
    simpa using this
  have hall1 : ∀ p ∈ cacheEvict c, (p.1 == hashText t) = false :=
    fun p hp => hall p (mem_cacheEvict hp)
  have hany : (cacheEvict c).any (fun p => p.1 == hashText t) = false := by
    rw [List.any_eq_false]
    intro p hp
    simp [hall1 p hp]
  have hfind1 : (cacheEvict c).find? (fun p => p.1 == hashText t) = none :=
    List.find?_eq_none.mpr (by intro p hp; simp [hall1 p hp])
  unfold cacheSet cacheGet
  simp only [hany]
  simp [List.find?_append, hfind1]

/-- The cache key is a function of the first 50 characters of the text
only. -/
theorem hashText_congr {t1 t2 : String} (h : takeChars t1 50 = takeChars t2 50) :
    hashText t1 = hashText t2 := by
  unfold hashText
  rw [h]

/-- Texts with equal cache keys are interchangeable for cache lookup. -/
theorem cacheGet_congr {t1 t2 : String} (c : List (String × AudioBuffer))
    (h : hashText t1 = hashText t2) : cacheGet c t1 = cacheGet c t2 := by
  simp [cacheGet, h]

/-- C8, witness for the amended theorem at a concrete state. -/
theorem tts_abort_net_cache_unchanged_witness :
    (generateAndPlayTTS voiceIdle "hello world test" demoVc
        .abortedNet).state.cache = voiceIdle.cache ∧
      (generateAndPlayTTS voiceIdle "hello world test" demoVc
          .abortedNet).playedBuf = none :=
  by
  have h := tts_abort_net_cache_unchanged voiceIdle "hello world test" demoVc
    (by decide) (by decide) (by decide) (by decide)
  exact ⟨h.1, h.2.2.2⟩

/-- A first `generateAndPlayTTS` call that passes the guards, misses the
cache and fetches successfully without an abort caches the bytes, plays
them, and issues exactly one request. -/
theorem generateAndPlayTTS_miss_ok (s : VoiceState) (text : String)
    (vc : VoiceConfig) (bytes : AudioBuffer) (hm : s.isMuted = false)
    (htr : ¬ jsTrim text = "") (hlen : 10 ≤ text.length)
    (hmiss : cacheGet s.cache text = none) :
    generateAndPlayTTS s text vc (.ok bytes false) =
      { state :=
          { isListening := s.isListening, isMuted := s.isMuted,
            isPlaying := true, isGeneratingTTS := false,
            conversationMode := s.conversationMode,
            currentAudioSource := true, pendingTTS := true,
            recognitionSupported := s.recognitionSupported,
            cache := cacheSet s.cache text bytes },
        networkCalls := 1, requestedVoice := some vc,
        playedBuf := some bytes } := by
  have hlen' : ¬ text.length < 10 := by omega
  simp [generateAndPlayTTS, hm, htr, hlen', stopCurrentAudio, playAudioBuffer,
    hmiss]

/-- C9, counterexample. The cache key does not incorporate the voice
configuration: after a first synthesis of a text with one voice
configuration, a second call for the same text with a different voice
configuration is served from the first call's cache entry and issues no
network request — impossible if the cache were keyed by text plus voice
configuration. -/
theorem tts_voice_in_key_cex :
    demoVc ≠ demoVc2 ∧
      (generateAndPlayTTS voiceIdle "hello world test" demoVc
          (.ok demoBuf false)).networkCalls = 1 ∧
      (generateAndPlayTTS
          (generateAndPlayTTS voiceIdle "hello world test" demoVc
            (.ok demoBuf false)).state
          "hello world test" demoVc2 .abortedNet).networkCalls = 0 ∧
      (generateAndPlayTTS
          (generateAndPlayTTS voiceIdle "hello world test" demoVc
            (.ok demoBuf false)).state
          "hello world test" demoVc2 .abortedNet).playedBuf
        = some demoBuf := by
  decide

/-- C9, amended. Calling the synthesis pipeline twice in succession with
the identical text (guards passing, the first call a cache miss whose fetch
succeeds, no intervening eviction) issues exactly one network request, the
second call being served from the cache; the cache is keyed by a truncated
base64 hash of the first 50 characters of the synthesized text alone — the
voice configuration is not part of the key. -/
theorem tts_cache_hit_short_circuits (s : VoiceState) (text : String)
    (vc : VoiceConfig) (bytes : AudioBuffer) (fr2 : TTSFetchResult)
    (hm : s.isMuted = false) (htr : ¬ jsTrim text = "")
    (hlen : 10 ≤ text.length) (hmiss : cacheGet s.cache text = none) :
    (generateAndPlayTTS s text vc (.ok bytes false)).networkCalls = 1 ∧
      (generateAndPlayTTS
          (generateAndPlayTTS s text vc (.ok bytes false)).state
          text vc fr2).networkCalls = 0 ∧
      (generateAndPlayTTS
          (generateAndPlayTTS s text vc (.ok bytes false)).state
          text vc fr2).playedBuf = some bytes := by
  have hlen' : ¬ text.length < 10 := by omega
  rw [generateAndPlayTTS_miss_ok s text vc bytes hm htr hlen hmiss]
  have hhit : cacheGet (cacheSet s.cache text bytes) text = some bytes :=
    cacheGet_cacheSet_self s.cache text bytes hmiss
  refine ⟨rfl, ?_⟩
  simp [generateAndPlayTTS, hm, htr, hlen', stopCurrentAudio, playAudioBuffer,
    hhit]

/-- C9, witness for the amended theorem at a concrete state. -/
theorem tts_cache_hit_short_circuits_witness :
    cacheGet voiceIdle.cache "hello world test" = none ∧
      (generateAndPlayTTS voiceIdle "hello world test" demoVc
          (.ok demoBuf false)).networkCalls = 1 ∧
      (generateAndPlayTTS
          (generateAndPlayTTS voiceIdle "hello world test" demoVc
            (.ok demoBuf false)).state
          "hello world test" demoVc .abortedNet).networkCalls = 0 := by
  refine ⟨by decide, ?_⟩
  have h := tts_cache_hit_short_circuits voiceIdle "hello world test" demoVc
    demoBuf .abortedNet (by decide) (by decide) (by decide) (by decide)
  exact ⟨h.1, h.2.1⟩

/-- C10. The audio-cache key is computed solely from the first 50
characters of the raw text (base64-encoded with non-alphanumeric characters
stripped) and does not incorporate the voice configuration: texts agreeing
on their first 50 characters share a key, so a synthesis call on the second
text after a successful call on the first plays the first text's cached
audio with no network request, regardless of either call's voice
configuration. -/
theorem tts_cache_key_prefix50 (t1 t2 : String)
    (h50 : takeChars t1 50 = takeChars t2 50) (s : VoiceState)
    (vc1 vc2 : VoiceConfig) (bytes : AudioBuffer) (fr2 : TTSFetchResult)
    (hm : s.isMuted = false) (htr1 : ¬ jsTrim t1 = "")
    (hlen1 : 10 ≤ t1.length) (htr2 : ¬ jsTrim t2 = "")
    (hlen2 : 10 ≤ t2.length) (hmiss : cacheGet s.cache t1 = none) :
    hashText t1 = hashText t2 ∧
      (generateAndPlayTTS
          (generateAndPlayTTS s t1 vc1 (.ok bytes false)).state
          t2 vc2 fr2).networkCalls = 0 ∧
      (generateAndPlayTTS
          (generateAndPlayTTS s t1 vc1 (.ok bytes false)).state
          t2 vc2 fr2).playedBuf = some bytes := by
  have hkey := hashText_congr h50
  have hlen2' : ¬ t2.length < 10 := by omega
  rw [generateAndPlayTTS_miss_ok s t1 vc1 bytes hm htr1 hlen1 hmiss]
  have hhit : cacheGet (cacheSet s.cache t1 bytes) t2 = some bytes := by
    rw [← cacheGet_congr _ hkey]
    exact cacheGet_cacheSet_self s.cache t1 bytes hmiss
  refine ⟨hkey, ?_⟩
  simp [generateAndPlayTTS, hm, htr2, hlen2', stopCurrentAudio,
    playAudioBuffer, hhit]

/-- C10, witness: two 54-character texts agreeing on their first 50
characters, synthesized with two different voice configurations. -/
theorem tts_cache_key_prefix50_witness :
    takeChars longTextA 50 = takeChars longTextB 50 ∧
      longTextA ≠ longTextB ∧ demoVc ≠ demoVc2 ∧
      hashText longTextA = hashText longTextB ∧
      (generateAndPlayTTS
          (generateAndPlayTTS voiceIdle longTextA demoVc
            (.ok demoBuf false)).state
          longTextB demoVc2 .abortedNet).networkCalls = 0 ∧
      (generateAndPlayTTS
          (generateAndPlayTTS voiceIdle longTextA demoVc
            (.ok demoBuf false)).state
          longTextB demoVc2 .abortedNet).playedBuf = some demoBuf := by
  refine ⟨by decide, by decide, by decide, ?_⟩
  have h := tts_cache_key_prefix50 longTextA longTextB (by decide) voiceIdle
    demoVc demoVc2 demoBuf .abortedNet (by decide) (by decide) (by decide)
    (by decide) (by decide) (by decide)
  exact h

end AgentCosm
